import Mathlib

/-!
Shallow embedding of the docker image manipulation core of the dockerscan
repository (file dockerscan/actions/image/docker_api.py), together with
theorems about its behaviour.  Python strings become Lean String, Python
dicts become association lists, the filesystem becomes a function from
absolute paths to a path state, and Python exceptions become an explicit
Except channel over a small model of the builtin exception class hierarchy.
-/

namespace Dockerscan

/-- Boolean substring test: model of the Python operator testing whether
the string needle occurs inside hay (used all over docker_api.py as
membership tests on strings). -/
def substrB (needle hay : String) : Bool :=
  decide (needle.data <:+: hay.data)

/-- Split a character list on a separator character; always returns at
least one part, matching the Python str split. -/
def splitChars (sep : Char) : List Char → List (List Char)
  | [] => [[]]
  | c :: cs =>
    let r := splitChars sep cs
    if c = sep then [] :: r
    else (c :: r.headD []) :: r.tail

/-- Model of os.path.basename: the part of the path after the last slash. -/
def basename (s : String) : String :=
  String.mk ((splitChars '/' s.data).getLastD s.data)

/- ------------------------------------------------------------------ -/
/- Layer chain walker (source function _find_layers, lines 43-60).    -/
/- ------------------------------------------------------------------ -/

/-- The n-th ancestor of a layer id under the parent pointers recorded in
each layer metadata file: zero steps gives the id itself, and a step
follows the optional parent field.  Returns none when the chain ends
before n steps. -/
def nthAncestor (parent : String → Option String) : Nat → String → Option String
  | 0, s => some s
  | n + 1, s =>
    match parent s with
    | none => none
    | some p => nthAncestor parent n p

/-- Model of the source function _find_layers: starting from a layer id,
yield the id itself and then recurse into the parent recorded in the
metadata of that layer, stopping when the metadata has no parent field.
The archive metadata is abstracted as the parent map; fuel bounds the
recursion depth and theorems assume it is large enough for the chain. -/
def find_layers (parent : String → Option String) : Nat → String → List String
  | 0, _ => []
  | fuel + 1, s =>
    s :: (match parent s with
          | none => []
          | some p => find_layers parent fuel p)

/-- Model of the loop of extract_docker_image (lines 356-374): the chain
of layers is materialised with find_layers and then each layer id is
extracted, in reversed order, always into the same extract_path.  Each
list element is one call of extract_docker_layer: the layer id paired
with the destination directory passed to it. -/
def extract_docker_image_calls (parent : String → Option String)
    (fuel : Nat) (first_layer extract_path : String) : List (String × String) :=
  (find_layers parent fuel first_layer).reverse.map (fun l => (l, extract_path))

/- ------------------------------------------------------------------ -/
/- Manifest rewriting (source build_manifest_with_new_layer, 199-218) -/
/- ------------------------------------------------------------------ -/

/-- The single element of a manifest.  Per the saved image data model the
manifest is a single element list; the functions below only ever touch
element 0, so the element is the whole state. -/
structure Manifest where
  Layers : List String
  Config : String
deriving DecidableEq, Repr

/-- Index of the first list element satisfying p: model of the Python
loop enumerating the Layers list and breaking at the first match. -/
def firstMatchIdx (p : String → Bool) : List String → Option Nat
  | [] => none
  | x :: xs => if p x then some 0 else (firstMatchIdx p xs).map Nat.succ

/-- Model of build_manifest_with_new_layer.  The source copies the
manifest with a shallow list copy, so the element dict and its Layers
list are shared between the copy and the original; the in-place
assignment to entry i of the Layers list therefore updates both objects.
The result is the pair of the value of the returned manifest and the
value of the manifest passed in as observed after the call. -/
def build_manifest_with_new_layer (old_manifest : Manifest)
    (old_layer_digest new_layer_digest : String) : Manifest × Manifest :=
  match firstMatchIdx (fun layer_id => substrB old_layer_digest layer_id)
      old_manifest.Layers with
  | none => (old_manifest, old_manifest)
  | some i =>
    let newLayers := old_manifest.Layers.set i (new_layer_digest ++ "/layer.tar")
    (⟨newLayers, old_manifest.Config⟩, ⟨newLayers, old_manifest.Config⟩)

/- ------------------------------------------------------------------ -/
/- Lemmas about the layer chain walker.                               -/
/- ------------------------------------------------------------------ -/

lemma nthAncestor_one (parent : String → Option String) (b : String) :
    nthAncestor parent 1 b = parent b := by
  cases h : parent b <;> simp [nthAncestor, h]

lemma nthAncestor_add (parent : String → Option String) (a b : Nat) :
    ∀ s, nthAncestor parent (a + b) s =
      (nthAncestor parent a s).bind (nthAncestor parent b) := by
  induction a with
  | zero => intro s; simp [nthAncestor, Nat.zero_add]
  | succ n ih =>
    intro s
    have hadd : n + 1 + b = (n + b) + 1 := by omega
    rw [hadd]
    cases h : parent s with
    | none => simp [nthAncestor, h]
    | some p => simp [nthAncestor, h, ih]

lemma nthAncestor_end_none (parent : String → Option String) (k : Nat)
    (s a : String) (h1 : nthAncestor parent k s = some a)
    (h2 : parent a = none) :
    ∀ m, k < m → nthAncestor parent m s = none := by
  intro m hm
  have hmk : m = k + (m - k) := by omega
  rw [hmk, nthAncestor_add, h1]
  have h3 : m - k = (m - k - 1) + 1 := by omega
  rw [h3]
  simp [nthAncestor, h2]

lemma nthAncestor_le_isSome (parent : String → Option String) (k : Nat)
    (s a : String) (h1 : nthAncestor parent k s = some a) :
    ∀ i, i ≤ k → ∃ b, nthAncestor parent i s = some b := by
  intro i hik
  have hk : k = i + (k - i) := by omega
  rw [hk, nthAncestor_add] at h1
  cases h : nthAncestor parent i s with
  | none => rw [h] at h1; exact Option.noConfusion h1
  | some b => exact ⟨b, rfl⟩

lemma find_layers_spec (parent : String → Option String) :
    ∀ (k : Nat) (fuel : Nat) (s a : String), k < fuel →
      nthAncestor parent k s = some a → parent a = none →
      (find_layers parent fuel s).length = k + 1 ∧
      ∀ i, (find_layers parent fuel s).get? i = nthAncestor parent i s := by
  intro k
  induction k with
  | zero =>
    intro fuel s a hf h1 h2
    cases fuel with
    | zero => omega
    | succ f =>
      have hs : s = a := by simpa [nthAncestor] using h1
      subst hs
      refine ⟨by simp [find_layers, h2], ?_⟩
      intro i
      cases i with
      | zero => simp [find_layers, h2, nthAncestor]
      | succ j => simp [find_layers, h2, nthAncestor]
  | succ n ih =>
    intro fuel s a hf h1 h2
    cases fuel with
    | zero => omega
    | succ f =>
      cases hp : parent s with
      | none => rw [nthAncestor, hp] at h1; exact Option.noConfusion h1
      | some p =>
        have h1' : nthAncestor parent n p = some a := by
          rw [nthAncestor, hp] at h1; exact h1
        obtain ⟨ihl, ihg⟩ := ih f p a (by omega) h1' h2
        refine ⟨by simp [find_layers, hp, ihl], ?_⟩
        intro i
        cases i with
        | zero => simp [find_layers, hp, nthAncestor]
        | succ j =>
          have hj := ihg j
          rw [List.get?_eq_getElem?] at hj
          simp [find_layers, hp, nthAncestor, hj]

lemma chain_index_injective (parent : String → Option String) (k : Nat)
    (s a : String) (h1 : nthAncestor parent k s = some a)
    (h2 : parent a = none) :
    ∀ i j, i ≤ k → j ≤ k →
      nthAncestor parent i s = nthAncestor parent j s → i = j := by
  have key : ∀ i j, i < j → j ≤ k →
      nthAncestor parent i s = nthAncestor parent j s → False := by
    intro i j hij hjk heq
    have hik : i ≤ k := by omega
    have h4 : nthAncestor parent (i + (k - i)) s = some a := by
      have hk : i + (k - i) = k := by omega
      rw [hk]; exact h1
    rw [nthAncestor_add] at h4
    have h5 : nthAncestor parent (j + (k - i)) s = some a := by
      rw [nthAncestor_add, ← heq]; exact h4
    have h6 : k < j + (k - i) := by omega
    rw [nthAncestor_end_none parent k s a h1 h2 _ h6] at h5
    exact Option.noConfusion h5
  intro i j hi hj heq
  rcases Nat.lt_trichotomy i j with h | h | h
  · exact absurd heq (fun he => key i j h hj he)
  · exact h
  · exact absurd heq.symm (fun he => key j i h hi he)

lemma find_layers_nodup (parent : String → Option String) (k fuel : Nat)
    (s a : String) (hf : k < fuel) (h1 : nthAncestor parent k s = some a)
    (h2 : parent a = none) : (find_layers parent fuel s).Nodup := by
  obtain ⟨hlen, hget⟩ := find_layers_spec parent k fuel s a hf h1 h2
  rw [List.nodup_iff_injective_get]
  intro ⟨i, hi⟩ ⟨j, hj⟩ hij
  have hgi := List.get?_eq_get hi
  have hgj := List.get?_eq_get hj
  rw [hij] at hgi
  have : nthAncestor parent i s = nthAncestor parent j s := by
    rw [← hget i, ← hget j, hgi, hgj]
  have hik : i ≤ k := by omega
  have hjk : j ≤ k := by omega
  exact Fin.ext (chain_index_injective parent k s a h1 h2 i j hik hjk this)

/-- Claim C5: the layer chain walker (source function _find_layers)
started at layer id s yields a finite sequence beginning with s, followed
by each successive parent, terminating exactly when a layer has no parent
field: the last yielded layer is the base layer a with no parent, and the
sequence length is k + 1, the number of layers reachable by
parent-pointer traversal (the sequence lists exactly the reachable
layers, without repetition). -/
theorem claim_C5_find_layers_chain (parent : String → Option String)
    (s a : String) (k fuel : Nat) (hfuel : k < fuel)
    (hend : nthAncestor parent k s = some a) (hbase : parent a = none) :
    (find_layers parent fuel s).head? = some s ∧
    (find_layers parent fuel s).length = k + 1 ∧
    (∀ i, (find_layers parent fuel s).get? i = nthAncestor parent i s) ∧
    (find_layers parent fuel s).getLast? = some a ∧
    (∀ i b c, (find_layers parent fuel s).get? i = some b →
      (find_layers parent fuel s).get? (i + 1) = some c →
      parent b = some c) ∧
    (∀ y, y ∈ find_layers parent fuel s ↔
      ∃ m, nthAncestor parent m s = some y) ∧
    (find_layers parent fuel s).Nodup := by
  obtain ⟨hlen, hget⟩ := find_layers_spec parent k fuel s a hfuel hend hbase
  refine ⟨?_, hlen, hget, ?_, ?_, ?_, ?_⟩
  · rw [← List.get?_zero, hget 0]; rfl
  · rw [List.getLast?_eq_get?, hlen, Nat.add_sub_cancel, hget k, hend]
  · intro i b c hb hc
    rw [hget i] at hb
    rw [hget (i + 1), nthAncestor_add, hb] at hc
    simpa [nthAncestor_one] using hc
  · intro y
    constructor
    · intro hy
      obtain ⟨n, hn⟩ := List.mem_iff_get?.mp hy
      exact ⟨n, by rw [← hget n]; exact hn⟩
    · intro ⟨m, hm⟩
      have hmk : m ≤ k := by
        by_contra hgt
        rw [nthAncestor_end_none parent k s a hend hbase m (by omega)] at hm
        exact Option.noConfusion hm
      exact List.mem_iff_get?.mpr ⟨m, by rw [hget m]; exact hm⟩
  · exact find_layers_nodup parent k fuel s a hfuel hend hbase

/-- Example parent map with the three layer chain ccc -> bbb -> aaa. -/
def parentEx : String → Option String := fun s =>
  if s = "ccc" then some "bbb"
  else if s = "bbb" then some "aaa"
  else none

/-- Witness for claim C5 at a concrete three layer chain. -/
theorem claim_C5_find_layers_chain_witness :
    (find_layers parentEx 5 "ccc").length = 3 ∧
    (find_layers parentEx 5 "ccc").head? = some "ccc" ∧
    (find_layers parentEx 5 "ccc").getLast? = some "aaa" := by
  have h := claim_C5_find_layers_chain parentEx "ccc" "aaa" 2 5
    (by omega) (by decide) (by decide)
  exact ⟨h.2.1, h.1, h.2.2.2.1⟩

/-- Claim C6: extract_docker_image invokes the per layer extractor once
per layer of the resolved chain, in reverse chain order: the base layer
a first, the topmost resolved layer s last, each call targeting the same
destination directory. -/
theorem claim_C6_extract_image_reverse_order
    (parent : String → Option String) (s a extract_path : String)
    (k fuel : Nat) (hfuel : k < fuel)
    (hend : nthAncestor parent k s = some a) (hbase : parent a = none) :
    (extract_docker_image_calls parent fuel s extract_path).length = k + 1 ∧
    (extract_docker_image_calls parent fuel s extract_path).head? =
      some (a, extract_path) ∧
    (extract_docker_image_calls parent fuel s extract_path).getLast? =
      some (s, extract_path) ∧
    (∀ i, i ≤ k →
      (extract_docker_image_calls parent fuel s extract_path).get? i =
        (nthAncestor parent (k - i) s).map (fun l => (l, extract_path))) ∧
    (∀ c ∈ extract_docker_image_calls parent fuel s extract_path,
      c.2 = extract_path) ∧
    (extract_docker_image_calls parent fuel s extract_path).Nodup := by
  obtain ⟨hlen, hget⟩ := find_layers_spec parent k fuel s a hfuel hend hbase
  have hh := claim_C5_find_layers_chain parent s a k fuel hfuel hend hbase
  unfold extract_docker_image_calls
  refine ⟨?_, ?_, ?_, ?_, ?_, ?_⟩
  · simp [hlen]
  · rw [List.head?_map, List.head?_reverse, hh.2.2.2.1]; rfl
  · rw [List.getLast?_map, List.getLast?_reverse, hh.1]; rfl
  · intro i hik
    have hi : i < (find_layers parent fuel s).reverse.length := by
      simp [hlen]; omega
    rw [List.get?_map, List.get?_reverse (by simp [hlen]; omega), hlen]
    have : k + 1 - 1 - i = k - i := by omega
    rw [this, hget (k - i)]
  · intro c hc
    obtain ⟨l, _, hl⟩ := List.mem_map.mp hc
    rw [← hl]
  · refine List.Nodup.map ?_ (List.nodup_reverse.mpr hh.2.2.2.2.2.2)
    intro x y hxy
    simpa using congrArg Prod.fst hxy

/-- Witness for claim C6 at a concrete three layer chain. -/
theorem claim_C6_extract_image_reverse_order_witness :
    (extract_docker_image_calls parentEx 5 "ccc" "/dest").head? =
      some ("aaa", "/dest") ∧
    (extract_docker_image_calls parentEx 5 "ccc" "/dest").getLast? =
      some ("ccc", "/dest") ∧
    (extract_docker_image_calls parentEx 5 "ccc" "/dest").length = 3 := by
  have h := claim_C6_extract_image_reverse_order parentEx "ccc" "aaa" "/dest"
    2 5 (by omega) (by decide) (by decide)
  exact ⟨h.2.1, h.2.2.1, h.1⟩

/- ------------------------------------------------------------------ -/
/- Lemmas about firstMatchIdx and the manifest claims.                -/
/- ------------------------------------------------------------------ -/

lemma firstMatchIdx_none (p : String → Bool) :
    ∀ l : List String, (∀ x ∈ l, p x = false) → firstMatchIdx p l = none := by
  intro l
  induction l with
  | nil => intro _; rfl
  | cons a t ih =>
    intro h
    have ha : p a = false := h a (by simp)
    simp [firstMatchIdx, ha, ih (fun x hx => h x (by simp [hx]))]

lemma firstMatchIdx_of_unique (p : String → Bool) :
    ∀ (l : List String) (i : Nat) (x : String), l.get? i = some x →
      p x = true → (∀ j y, l.get? j = some y → p y = true → j = i) →
      firstMatchIdx p l = some i := by
  intro l
  induction l with
  | nil => intro i x h; simp at h
  | cons a t ih =>
    intro i x hget hp huniq
    by_cases hpa : p a = true
    · have h0 : (0 : Nat) = i := huniq 0 a rfl hpa
      simp [firstMatchIdx, hpa, ← h0]
    · have hpa' : p a = false := by simpa using hpa
      cases i with
      | zero =>
        have hxa : x = a := by simpa using hget.symm
        rw [hxa] at hp
        rw [hp] at hpa'
        exact Bool.noConfusion hpa'
      | succ i' =>
        have hget' : t.get? i' = some x := hget
        have huniq' : ∀ j y, t.get? j = some y → p y = true → j = i' := by
          intro j y hj hy
          have := huniq (j + 1) y hj hy
          omega
        simp [firstMatchIdx, hpa', ih i' x hget' hp huniq']

/-- Counterexample for claim C2: on a manifest with exactly one matching
Layers entry, the manifest passed in as the original is not left
unchanged by the call: its shared Layers list is mutated in place by the
assignment through the shallow copy. -/
theorem claim_C2_counterexample :
    (build_manifest_with_new_layer ⟨["abc/layer.tar"], "cfg.json"⟩
        "abc" "ffff").2 ≠
      (⟨["abc/layer.tar"], "cfg.json"⟩ : Manifest) := by
  decide

/-- Claim C2 (amended): for a manifest with exactly one Layers entry
matching the replaced identifier, the returned manifest equals the
original with that single entry replaced by the new digest followed by
/layer.tar; however the manifest passed in as the original is not left
unchanged: after the call it holds the same mutated value as the
returned manifest, because the copy in the source is a shallow list
copy sharing the entry and its Layers list. -/
theorem claim_C2_build_manifest_replaces_and_mutates (old : Manifest)
    (oldD newD : String) (i : Nat) (x : String)
    (hget : old.Layers.get? i = some x)
    (hmatch : substrB oldD x = true)
    (huniq : ∀ j y, old.Layers.get? j = some y → substrB oldD y = true → j = i) :
    (build_manifest_with_new_layer old oldD newD).1 =
      ⟨old.Layers.set i (newD ++ "/layer.tar"), old.Config⟩ ∧
    (build_manifest_with_new_layer old oldD newD).2 =
      (build_manifest_with_new_layer old oldD newD).1 := by
  have hidx := firstMatchIdx_of_unique
    (fun layer_id => substrB oldD layer_id) old.Layers i x hget hmatch huniq
  unfold build_manifest_with_new_layer
  rw [hidx]
  exact ⟨rfl, rfl⟩

/-- Witness for the amended claim C2 at a concrete two layer manifest. -/
theorem claim_C2_build_manifest_replaces_and_mutates_witness :
    (build_manifest_with_new_layer
        ⟨["aaa/layer.tar", "bbb/layer.tar"], "c.json"⟩ "bbb" "ffff").1 =
      ⟨["aaa/layer.tar", "ffff/layer.tar"], "c.json"⟩ ∧
    (build_manifest_with_new_layer
        ⟨["aaa/layer.tar", "bbb/layer.tar"], "c.json"⟩ "bbb" "ffff").2 =
      (build_manifest_with_new_layer
        ⟨["aaa/layer.tar", "bbb/layer.tar"], "c.json"⟩ "bbb" "ffff").1 := by
  have h := claim_C2_build_manifest_replaces_and_mutates
    ⟨["aaa/layer.tar", "bbb/layer.tar"], "c.json"⟩ "bbb" "ffff" 1
    "bbb/layer.tar" rfl (by decide) ?_
  · exact ⟨h.1.trans (by decide), h.2⟩
  · intro j y hj hy
    cases j with
    | zero =>
      have hy' : y = "aaa/layer.tar" := by simpa using hj.symm
      rw [hy'] at hy
      exact absurd hy (by decide)
    | succ j' =>
      cases j' with
      | zero => rfl
      | succ j'' => simp at hj

/-- Claim C4: when the replaced layer identifier occurs in none of the
Layers entries, build_manifest_with_new_layer returns the original
manifest unchanged and leaves the original untouched; no error channel
exists in this function (the loop simply finds no match). -/
theorem claim_C4_build_manifest_no_match (old : Manifest)
    (oldD newD : String)
    (h : ∀ l ∈ old.Layers, substrB oldD l = false) :
    build_manifest_with_new_layer old oldD newD = (old, old) := by
  unfold build_manifest_with_new_layer
  rw [firstMatchIdx_none _ old.Layers h]

/-- Witness for claim C4 at a concrete manifest and absent identifier. -/
theorem claim_C4_build_manifest_no_match_witness :
    build_manifest_with_new_layer ⟨["aaa/layer.tar"], "c.json"⟩ "zzz" "ffff" =
      (⟨["aaa/layer.tar"], "c.json"⟩, ⟨["aaa/layer.tar"], "c.json"⟩) :=
  claim_C4_build_manifest_no_match ⟨["aaa/layer.tar"], "c.json"⟩ "zzz" "ffff"
    (by decide)

/- ------------------------------------------------------------------ -/
/- Exception class model and reference resolution                      -/
/- (source open_docker_image, lines 66-134).                          -/
/- ------------------------------------------------------------------ -/

/-- The Python exception classes this code can meet.  The two dockerscan
classes are the distinct error kinds of the library (DockerscanError
derives Exception, DockerscanNotExitsError derives DockerscanError);
the builtin classes follow the builtin hierarchy. -/
inductive PyExcClass where
  | baseException
  | exception
  | osError
  | keyError
  | indexError
  | dockerscanError
  | dockerscanNotExitsError
deriving DecidableEq, BEq, Repr

/-- Ancestor classes of an exception class, the class itself included. -/
def excAncestors : PyExcClass → List PyExcClass
  | .baseException => [.baseException]
  | .exception => [.exception, .baseException]
  | .osError => [.osError, .exception, .baseException]
  | .keyError => [.keyError, .exception, .baseException]
  | .indexError => [.indexError, .exception, .baseException]
  | .dockerscanError => [.dockerscanError, .exception, .baseException]
  | .dockerscanNotExitsError =>
    [.dockerscanNotExitsError, .dockerscanError, .exception, .baseException]

/-- A handler clause for class handler catches a raised exception of
class raised exactly when handler is that class or one of its
ancestors. -/
def catches (handler raised : PyExcClass) : Bool :=
  (excAncestors raised).contains handler

/-- The split with maxsplit one used on the base file name: the part
before the first colon, and everything after it. -/
def splitOnFirstColon (s : String) : String × String :=
  let parts := splitChars ':' s.data
  (String.mk (parts.headD s.data),
   String.mk (List.intercalate [':'] parts.tail))

/-- Model of the image and tag parsing of open_docker_image (lines
86-91): the base file name is split at the first colon; without a colon
the tag defaults to latest. -/
def parse_image_tag (tmp_image : String) : String × String :=
  if substrB ":" tmp_image then splitOnFirstColon tmp_image
  else (tmp_image, "latest")

/-- Repository index: image name to list of tag and top layer pairs,
the parsed repositories file of the archive. -/
abbrev RepoIndex := List (String × List (String × String))

/-- Python dict lookup: the value at the key, or a KeyError. -/
def dictGet {α : Type} (d : List (String × α)) (k : String) :
    Except PyExcClass α :=
  match d.find? (fun kv => kv.1 == k) with
  | some kv => .ok kv.2
  | none => .error .keyError

/-- The chained dict lookups of repos_info at image then tag. -/
def lookupImageTag (repos : RepoIndex) (image tag : String) :
    Except PyExcClass String :=
  match dictGet repos image with
  | .error e => .error e
  | .ok tags => dictGet tags tag

/-- The message of the raised exception, built exactly as the source
formats it (including its missing space between the words and and
try). -/
def resolution_error_message (image tag : String) : String :=
  "failed to find image " ++ image ++ " with tag " ++ tag ++
  " (Command: \"docker pull " ++ image ++ ":" ++ tag ++
  "\" will report error). Try indicating the respository (option \"-r\") andtry again."

/-- Model of the reference resolution of open_docker_image (lines
115-132): look up image then tag in the repository index; on a KeyError
retry with the repository prefix joined by a slash; on a second
KeyError raise a plain builtin Exception carrying the message above. -/
def resolve_top_layers (repos : RepoIndex)
    (image tag image_repository : String) :
    Except (PyExcClass × String) String :=
  match lookupImageTag repos image tag with
  | .ok v => .ok v
  | .error _ =>
    match lookupImageTag repos (image_repository ++ "/" ++ image) tag with
    | .ok v => .ok v
    | .error _ => .error (.exception, resolution_error_message image tag)

/-- The resolution performed by open_docker_image from the archive path:
the base file name of the path gives image and tag, which are then
resolved against the repository index. -/
def open_docker_image_resolve (image_path : String) (repos : RepoIndex)
    (image_repository : String) : Except (PyExcClass × String) String :=
  let it := parse_image_tag (basename image_path)
  resolve_top_layers repos it.1 it.2 image_repository

lemma substrB_of_parts (mid pre suf s : String)
    (h : s.data = pre.data ++ mid.data ++ suf.data) :
    substrB mid s = true := by
  unfold substrB
  apply decide_eq_true
  exact ⟨pre.data, suf.data, by rw [h]⟩

lemma image_substr_message (image tag : String) :
    substrB image (resolution_error_message image tag) = true := by
  apply substrB_of_parts image "failed to find image "
    (" with tag " ++ tag ++ " (Command: \"docker pull " ++ image ++ ":" ++
      tag ++ "\" will report error). Try indicating the respository (option \"-r\") andtry again.")
  simp [resolution_error_message, String.data_append]

lemma tag_substr_message (image tag : String) :
    substrB tag (resolution_error_message image tag) = true := by
  apply substrB_of_parts tag ("failed to find image " ++ image ++ " with tag ")
    (" (Command: \"docker pull " ++ image ++ ":" ++
      tag ++ "\" will report error). Try indicating the respository (option \"-r\") andtry again.")
  simp [resolution_error_message, String.data_append]

/-- Counterexample for claim C3: when both lookups miss, the raised
error is the plain builtin Exception class, and every handler clause
that catches it also catches OSError; so the failure is not a distinct
error kind catchable independently of generic I/O errors. -/
theorem claim_C3_counterexample :
    open_docker_image_resolve "nginx:latest" [] "myrepo" =
      .error (.exception, resolution_error_message "nginx" "latest") ∧
    ∀ handler : PyExcClass, catches handler .exception = true →
      catches handler .osError = true := by
  constructor
  · rfl
  · intro h
    cases h <;> decide

/-- Claim C3 (amended): parsing defaults the tag to latest when the base
file name has no colon; when the plain lookup misses and the lookup at
the repository prefixed key succeeds, resolution returns that entry;
when both lookups miss, the call fails with a plain builtin Exception
(not a distinct dockerscan error kind) whose message names the missing
image and tag. -/
theorem claim_C3_resolution_fallback_and_error (repos : RepoIndex)
    (image tag image_repository : String) :
    (∀ s, substrB ":" s = false → parse_image_tag s = (s, "latest")) ∧
    (∀ e v, lookupImageTag repos image tag = .error e →
      lookupImageTag repos (image_repository ++ "/" ++ image) tag = .ok v →
      resolve_top_layers repos image tag image_repository = .ok v) ∧
    (∀ e1 e2, lookupImageTag repos image tag = .error e1 →
      lookupImageTag repos (image_repository ++ "/" ++ image) tag = .error e2 →
      resolve_top_layers repos image tag image_repository =
        .error (.exception, resolution_error_message image tag) ∧
      substrB image (resolution_error_message image tag) = true ∧
      substrB tag (resolution_error_message image tag) = true) := by
  refine ⟨?_, ?_, ?_⟩
  · intro s hs
    unfold parse_image_tag
    rw [hs]
    rfl
  · intro e v h1 h2
    unfold resolve_top_layers
    rw [h1, h2]
  · intro e1 e2 h1 h2
    unfold resolve_top_layers
    rw [h1, h2]
    exact ⟨rfl, image_substr_message image tag, tag_substr_message image tag⟩

/-- Witness for the amended claim C3: with only the prefixed key
myrepo/nginx present, resolution of nginx latest succeeds with that
entry; and a name without colon parses with the default tag. -/
theorem claim_C3_resolution_fallback_and_error_witness :
    resolve_top_layers [("myrepo/nginx", [("latest", "top1")])]
      "nginx" "latest" "myrepo" = .ok "top1" ∧
    parse_image_tag "nginx" = ("nginx", "latest") :=
  ⟨(claim_C3_resolution_fallback_and_error
      [("myrepo/nginx", [("latest", "top1")])] "nginx" "latest" "myrepo").2.1
      .keyError "top1" rfl rfl,
   (claim_C3_resolution_fallback_and_error
      [("myrepo/nginx", [("latest", "top1")])] "nginx" "latest" "myrepo").1
      "nginx" (by decide)⟩

/- ------------------------------------------------------------------ -/
/- Layer extraction and whiteout processing                           -/
/- (source extract_docker_layer, lines 329-353).                      -/
/- ------------------------------------------------------------------ -/

/-- The errno value for a missing file. -/
def ENOENT : Nat := 2

/-- State of one absolute path on the filesystem: absent, present and
removable, or present but failing removal with a given errno. -/
inductive PathState where
  | absent
  | present
  | erring (e : Nat)
deriving DecidableEq, Repr

/-- The filesystem, as a map from absolute paths to their state. -/
def FS := String → PathState

/-- Pointwise update of the filesystem at one path. -/
def FS.update (fs : FS) (p : String) (st : PathState) : FS :=
  fun q => if q = p then st else fs q

/-- Model of os.unlink on an absolute path: removing an absent path
fails with ENOENT, removing a present path succeeds, and a path in an
erring state fails with its errno. -/
def unlink (fs : FS) (p : String) : Except Nat FS :=
  match fs p with
  | .absent => .error ENOENT
  | .present => .ok (fs.update p .absent)
  | .erring e => .error e

/-- The try block of the whiteout loop (lines 347-353): unlink the
marker path, then the stripped path; an OSError with errno ENOENT is
swallowed (leaving the filesystem as it was at the failure point, and
skipping the remaining unlink), any other errno propagates. -/
def whiteoutStep (fs : FS) (path newpath : String) : Except Nat FS :=
  match unlink fs path with
  | .ok fs1 =>
    match unlink fs1 newpath with
    | .ok fs2 => .ok fs2
    | .error e => if e = ENOENT then .ok fs1 else .error e
  | .error e => if e = ENOENT then .ok fs else .error e

/-- Boolean test that pre is an initial segment of s, the model of the
str startswith method. -/
def startsWithB (pre s : String) : Bool :=
  List.isPrefixOf pre.data s.data

/-- The whiteout marker test of the source: the member path starts with
the reserved prefix, or contains it after a path separator. -/
def is_whiteout (path : String) : Bool :=
  startsWithB ".wh." path || substrB "/.wh." path

/-- The sibling path obtained from a marker path: drop the four prefix
characters when the path starts with the prefix, otherwise replace each
occurrence of the prefix after a separator. -/
def whiteout_newpath (path : String) : String :=
  if startsWithB ".wh." path then String.mk (path.data.drop 4)
  else path.replace "/.wh." "/"

/-- Resolution of a relative member path against a directory, the model
of both os.path.join and the resolution of a relative os.unlink
argument against the process working directory. -/
def pathJoin (d p : String) : String := d ++ "/" ++ p

/-- Model of layer.extractall into extract_path: every member path
becomes present under the destination directory. -/
def extractall (fs : FS) (extract_path : String)
    (members : List String) : FS :=
  fun q =>
    if (members.map (pathJoin extract_path)).contains q then .present
    else fs q

/-- The whiteout loop of extract_docker_layer: for each member whose
path is a whiteout marker, unlink the marker path and the stripped
path.  The unlink arguments are the member paths as recorded in the
archive, which are relative, so they resolve against the process
working directory cwd, not against extract_path. -/
def processWhiteouts (cwd : String) : FS → List String → Except Nat FS
  | fs, [] => .ok fs
  | fs, m :: ms =>
    if is_whiteout m then
      match whiteoutStep fs (pathJoin cwd m)
          (pathJoin cwd (whiteout_newpath m)) with
      | .ok fs1 => processWhiteouts cwd fs1 ms
      | .error e => .error e
    else processWhiteouts cwd fs ms

/-- Model of extract_docker_layer: extract all members of the inner
archive into extract_path, then run the whiteout loop, whose relative
unlink paths resolve against the current working directory cwd. -/
def extract_docker_layer (fs : FS) (cwd extract_path : String)
    (members : List String) : Except Nat FS :=
  processWhiteouts cwd (extractall fs extract_path members) members

/-- Filesystem of the C1 failing input: an earlier layer already wrote
secret.txt into the destination directory /dest; everything else is
absent. -/
def fsC1 : FS := fun q =>
  if q = "/dest/secret.txt" then .present else .absent

/-- Claim C1 evaluated at its failing input: a layer containing the
whiteout marker .wh.secret.txt is extracted into /dest while the
process working directory is /cwd.  The claim says secret.txt is
removed from the destination and the marker is absent from the
extracted tree; the code instead unlinks the relative marker path
against the working directory, the unlink fails with ENOENT and is
swallowed (also skipping the unlink of the sibling), so after the call
both /dest/secret.txt and the marker /dest/.wh.secret.txt are still
present. -/
theorem claim_C1_whiteout_failing_input :
    ∃ fsF : FS,
      extract_docker_layer fsC1 "/cwd" "/dest" [".wh.secret.txt"] = .ok fsF ∧
      fsF "/dest/secret.txt" = .present ∧
      fsF "/dest/.wh.secret.txt" = .present := by
  exact ⟨extractall fsC1 "/dest" [".wh.secret.txt"], rfl, by decide, by decide⟩

/-- Claim C8: in the whiteout try block, attempting to delete an absent
path is not an error: when the marker path is absent the step succeeds
leaving the filesystem unchanged, and when the marker unlink succeeds
and the stripped path is absent the step succeeds with just the marker
removed; while a removal failure with any errno other than ENOENT,
from either unlink, propagates unmodified, and the whiteout loop of
extract_docker_layer passes that error on to the caller. -/
theorem claim_C8_whiteout_enoent_idempotent (fs : FS) (p q : String)
    (e : Nat) :
    (fs p = .absent → whiteoutStep fs p q = .ok fs) ∧
    (∀ fs1, unlink fs p = .ok fs1 → fs1 q = .absent →
      whiteoutStep fs p q = .ok fs1) ∧
    (unlink fs p = .error e → e ≠ ENOENT →
      whiteoutStep fs p q = .error e) ∧
    (∀ fs1, unlink fs p = .ok fs1 → unlink fs1 q = .error e →
      e ≠ ENOENT → whiteoutStep fs p q = .error e) ∧
    (∀ cwd fs0 m ms, is_whiteout m = true →
      whiteoutStep fs0 (pathJoin cwd m)
        (pathJoin cwd (whiteout_newpath m)) = .error e →
      processWhiteouts cwd fs0 (m :: ms) = .error e) := by
  refine ⟨?_, ?_, ?_, ?_, ?_⟩
  · intro h
    unfold whiteoutStep unlink
    rw [h]
    rfl
  · intro fs1 h1 h2
    unfold whiteoutStep
    rw [h1]
    simp [unlink, h2]
  · intro h1 h2
    simp [whiteoutStep, h1, h2]
  · intro fs1 h1 h2 h3
    unfold whiteoutStep
    rw [h1]
    simp [h2, h3]
  · intro cwd fs0 m ms h1 h2
    unfold processWhiteouts
    rw [h1, h2]
    rfl

/-- Filesystem used by the C8 witness: one removable marker whose
sibling is absent, and one path erring with EACCES. -/
def fsC8 : FS := fun q =>
  if q = "/cwd/.wh.gone.txt" then .present
  else if q = "/cwd/.wh.locked.txt" then .erring 13
  else .absent

/-- Witness for claim C8: deleting the absent marker path succeeds and
changes nothing; deleting a present marker whose sibling is absent
succeeds; and an unlink failing with errno 13 propagates. -/
theorem claim_C8_whiteout_enoent_idempotent_witness :
    whiteoutStep fsC8 "/cwd/.wh.missing.txt" "/cwd/missing.txt" = .ok fsC8 ∧
    whiteoutStep fsC8 "/cwd/.wh.gone.txt" "/cwd/gone.txt" =
      .ok (fsC8.update "/cwd/.wh.gone.txt" .absent) ∧
    whiteoutStep fsC8 "/cwd/.wh.locked.txt" "/cwd/locked.txt" =
      .error 13 := by
  refine ⟨?_, ?_, ?_⟩
  · exact (claim_C8_whiteout_enoent_idempotent fsC8
      "/cwd/.wh.missing.txt" "/cwd/missing.txt" 13).1 (by decide)
  · exact (claim_C8_whiteout_enoent_idempotent fsC8
      "/cwd/.wh.gone.txt" "/cwd/gone.txt" 13).2.1
      (fsC8.update "/cwd/.wh.gone.txt" .absent) rfl (by decide)
  · exact (claim_C8_whiteout_enoent_idempotent fsC8
      "/cwd/.wh.locked.txt" "/cwd/locked.txt" 13).2.2.1 rfl
      (by decide)

/- ------------------------------------------------------------------ -/
/- Layer builder (source build_image_layer_from_dir, lines 169-196).  -/
/- ------------------------------------------------------------------ -/

/-- One entry of a directory tree: a file with content and modification
time, or a directory with children.  A children list carries the
directory listing in the sorted order in which the packer visits it. -/
inductive DirEntry where
  | file (name content : String) (mtime : Nat)
  | dir (name : String) (mtime : Nat) (children : List DirEntry)

/-- One record of the produced inner archive: entry name, directory
flag, size, modification time and content. -/
structure TarRec where
  name : String
  isDir : Bool
  size : Nat
  mtime : Nat
  content : String
deriving DecidableEq, Repr

mutual
/-- Records produced for one directory entry under a name prefix: the
model of the recursive tarfile add. -/
def tarAddEntry (pfx : String) : DirEntry → List TarRec
  | .file n c m => [⟨pfx ++ "/" ++ n, false, c.length, m, c⟩]
  | .dir n m ch =>
    ⟨pfx ++ "/" ++ n, true, 0, m, ""⟩ :: tarAddList (pfx ++ "/" ++ n) ch
/-- Records produced for a directory listing under a name prefix. -/
def tarAddList (pfx : String) : List DirEntry → List TarRec
  | [] => []
  | e :: es => tarAddEntry pfx e ++ tarAddList pfx es
end

/-- Serialization of the archive records to raw bytes, one record after
the other: a concrete injective layout standing for the tar byte
format. -/
def tarBytes : List TarRec → String
  | [] => ""
  | r :: rs =>
    r.name ++ "|" ++ (if r.isDir then "d" else "f") ++ "|" ++
    toString r.size ++ "|" ++ toString r.mtime ++ "|" ++ r.content ++
    "\n" ++ tarBytes rs

/-- The packing of source_dir with the root as archive name: the record
for the root directory followed by the records of its children.  The
tarfile add call skips the file of the archive currently being written,
so the new archive placed inside source_dir never appears among the
records. -/
def tarAddRootDir (mtime : Nat) (children : List DirEntry) : List TarRec :=
  ⟨"/", true, 0, mtime, ""⟩ :: tarAddList "" children

/-- Model of build_image_layer_from_dir: append the tar suffix when the
layer name does not contain tar, place the archive inside source_dir,
pack the directory tree, and return the archive path together with the
lowercase hex SHA-256 digest of the raw archive bytes.  The hashing
primitive is the injected strategy sha256hex. -/
def build_image_layer_from_dir (sha256hex : String → String)
    (layer_name source_dir : String) (mtime : Nat)
    (children : List DirEntry) : String × String :=
  let ln := if substrB "tar" layer_name then layer_name
            else layer_name ++ ".tar"
  let new_layer_path := source_dir ++ "/" ++ ln
  (new_layer_path, sha256hex (tarBytes (tarAddRootDir mtime children)))

/-- Claim C7: build_image_layer_from_dir is deterministic: two
invocations on the same directory content with the same layer name
return the same digest, and the digest is computed over the raw bytes
of the produced inner archive. -/
theorem claim_C7_build_layer_deterministic (sha256hex : String → String)
    (layer_name source_dir : String) (m1 m2 : Nat)
    (c1 c2 : List DirEntry) (hm : m1 = m2) (hc : c1 = c2) :
    (build_image_layer_from_dir sha256hex layer_name source_dir m1 c1).2 =
      (build_image_layer_from_dir sha256hex layer_name source_dir m2 c2).2 ∧
    (build_image_layer_from_dir sha256hex layer_name source_dir m1 c1).2 =
      sha256hex (tarBytes (tarAddRootDir m1 c1)) := by
  subst hm
  subst hc
  exact ⟨rfl, rfl⟩

/-- Witness for claim C7 at a concrete one file directory, with the
identity as a stand in hashing strategy. -/
theorem claim_C7_build_layer_deterministic_witness :
    (build_image_layer_from_dir (fun s => s) "new_layer" "/tmp/new_layer" 5
        [.file "hello.txt" "hi" 3]).2 =
      (fun s : String => s)
        (tarBytes (tarAddRootDir 5 [.file "hello.txt" "hi" 3])) :=
  (claim_C7_build_layer_deterministic (fun s => s) "new_layer"
    "/tmp/new_layer" 5 5 [.file "hello.txt" "hi" 3]
    [.file "hello.txt" "hi" 3] rfl rfl).2

/- ------------------------------------------------------------------ -/
/- Image assembler (source create_new_docker_image, lines 221-293).   -/
/- ------------------------------------------------------------------ -/

/-- One entry of the original outer archive: name, raw content and the
recorded size. -/
structure TarEntryIn where
  name : String
  content : String
  size : Nat
deriving DecidableEq, Repr

/-- One entry written to the output archive. -/
structure TarEntryOut where
  name : String
  content : String
  size : Nat
deriving DecidableEq, Repr

/-- The parsed image config document: its rootfs diff id list, plus the
remaining fields held opaque. -/
structure ConfigDoc where
  diff_ids : List String
  rest : String
deriving DecidableEq, Repr

/-- Assignment to the last element of the diff id list, the model of
the negative index assignment in the source; on an empty list that
assignment raises IndexError. -/
def setLastDiffId (c : ConfigDoc) (v : String) : Except PyExcClass ConfigDoc :=
  if c.diff_ids.isEmpty then .error .indexError
  else .ok ⟨c.diff_ids.dropLast ++ [v], c.rest⟩

/-- Processing of one original entry by create_new_docker_image, in
source order: the manifest entry is replaced by the rewritten manifest
with recomputed size; an entry whose name contains the old layer digest
is skipped when its name contains the word layer, replaced by the new
layer archive when its name is exactly the old digest, and otherwise
re-emitted under the new digest directory (with the old digest replaced
textually inside json files); a top level json entry is parsed as the
config, its last diff id set to the tagged new digest, and re-emitted
with recomputed size; anything else is copied verbatim.  The json codec
and the manifest serializer are the injected strategies dumpsManifest,
loadsConfig and dumpsConfig. -/
def process_entry (dumpsManifest : Manifest → String)
    (loadsConfig : String → ConfigDoc) (dumpsConfig : ConfigDoc → String)
    (manifest : Manifest) (old_layer_digest new_layer_digest : String)
    (new_layer_bytes : String) (f : TarEntryIn) :
    Except PyExcClass (List TarEntryOut) :=
  if f.name = "manifest.json" then
    let c := dumpsManifest manifest
    .ok [⟨"manifest.json", c, c.length⟩]
  else if substrB old_layer_digest f.name then
    if substrB "layer" f.name then .ok []
    else if f.name = old_layer_digest then
      .ok [⟨new_layer_digest ++ "/layer.tar", new_layer_bytes,
            new_layer_bytes.length⟩]
    else
      let c0 := f.content
      let c := if substrB "json" f.name then
                 c0.replace old_layer_digest new_layer_digest
               else c0
      .ok [⟨new_layer_digest ++ "/" ++ basename f.name, c, c.length⟩]
  else if substrB ".json" f.name && !(substrB "/" f.name) then
    match setLastDiffId (loadsConfig f.content)
        ("sha256:" ++ new_layer_digest) with
    | .error e => .error e
    | .ok cfg =>
      let s := dumpsConfig cfg
      .ok [⟨f.name, s, s.length⟩]
  else .ok [⟨f.name, f.content, f.size⟩]

/-- Model of create_new_docker_image: visit every entry of the original
archive in order and emit the processed entries; an exception aborts
the whole rewrite. -/
def create_new_docker_image (dumpsManifest : Manifest → String)
    (loadsConfig : String → ConfigDoc) (dumpsConfig : ConfigDoc → String)
    (manifest : Manifest) (old_layer_digest new_layer_digest : String)
    (new_layer_bytes : String) :
    List TarEntryIn → Except PyExcClass (List TarEntryOut)
  | [] => .ok []
  | f :: fs =>
    match process_entry dumpsManifest loadsConfig dumpsConfig manifest
        old_layer_digest new_layer_digest new_layer_bytes f with
    | .error e => .error e
    | .ok out =>
      match create_new_docker_image dumpsManifest loadsConfig dumpsConfig
          manifest old_layer_digest new_layer_digest new_layer_bytes fs with
      | .error e => .error e
      | .ok rest => .ok (out ++ rest)

lemma create_new_docker_image_mem (dumpsManifest : Manifest → String)
    (loadsConfig : String → ConfigDoc) (dumpsConfig : ConfigDoc → String)
    (manifest : Manifest) (oldD newD newBytes : String) :
    ∀ (entries : List TarEntryIn) (out : List TarEntryOut),
      create_new_docker_image dumpsManifest loadsConfig dumpsConfig manifest
        oldD newD newBytes entries = .ok out →
      ∀ f ∈ entries, ∃ l,
        process_entry dumpsManifest loadsConfig dumpsConfig manifest
          oldD newD newBytes f = .ok l ∧ ∀ x ∈ l, x ∈ out := by
  intro entries
  induction entries with
  | nil => intro out h f hf; simp at hf
  | cons a t ih =>
    intro out h f hf
    unfold create_new_docker_image at h
    cases hp : process_entry dumpsManifest loadsConfig dumpsConfig manifest
        oldD newD newBytes a with
    | error e => rw [hp] at h; exact Except.noConfusion h
    | ok la =>
      rw [hp] at h
      cases hr : create_new_docker_image dumpsManifest loadsConfig
          dumpsConfig manifest oldD newD newBytes t with
      | error e => rw [hr] at h; exact Except.noConfusion h
      | ok rt =>
        rw [hr] at h
        have hout : out = la ++ rt := (Except.ok.inj h).symm
        rcases List.mem_cons.mp hf with hfa | hft
        · subst hfa
          exact ⟨la, hp, fun x hx => by
            rw [hout]; exact List.mem_append_left rt hx⟩
        · obtain ⟨l, hl, hsub⟩ := ih rt hr f hft
          exact ⟨l, hl, fun x hx => by
            rw [hout]; exact List.mem_append_right la (hsub x hx)⟩

/-- Claim C9: in the output archive, the top level image config entry (a
json named entry without a path separator, distinct from manifest.json
and from every entry of the replaced layer) is re-emitted with the last
element of its rootfs diff id list set to the tagged new layer digest
and its size recomputed; and the rewritten manifest is emitted as the
content of the manifest.json entry with its size recomputed. -/
theorem claim_C9_config_and_manifest_rewrite
    (dumpsManifest : Manifest → String) (loadsConfig : String → ConfigDoc)
    (dumpsConfig : ConfigDoc → String) (manifest : Manifest)
    (entries : List TarEntryIn) (oldD newD newBytes : String)
    (out : List TarEntryOut)
    (hout : create_new_docker_image dumpsManifest loadsConfig dumpsConfig
      manifest oldD newD newBytes entries = .ok out)
    (ecfg : TarEntryIn) (hcfg : ecfg ∈ entries)
    (hn1 : ecfg.name ≠ "manifest.json")
    (hn2 : substrB oldD ecfg.name = false)
    (hn3 : substrB ".json" ecfg.name = true)
    (hn4 : substrB "/" ecfg.name = false)
    (hdiff : (loadsConfig ecfg.content).diff_ids ≠ []) :
    (∃ cfg, setLastDiffId (loadsConfig ecfg.content) ("sha256:" ++ newD) =
        .ok cfg ∧
      cfg.diff_ids.getLast? = some ("sha256:" ++ newD) ∧
      (⟨ecfg.name, dumpsConfig cfg, (dumpsConfig cfg).length⟩ :
        TarEntryOut) ∈ out) ∧
    (∀ eman ∈ entries, eman.name = "manifest.json" →
      (⟨"manifest.json", dumpsManifest manifest,
        (dumpsManifest manifest).length⟩ : TarEntryOut) ∈ out) := by
  constructor
  · obtain ⟨l, hl, hsub⟩ := create_new_docker_image_mem dumpsManifest
      loadsConfig dumpsConfig manifest oldD newD newBytes entries out hout
      ecfg hcfg
    have hset : setLastDiffId (loadsConfig ecfg.content)
        ("sha256:" ++ newD) =
        .ok ⟨(loadsConfig ecfg.content).diff_ids.dropLast ++
          ["sha256:" ++ newD], (loadsConfig ecfg.content).rest⟩ := by
      unfold setLastDiffId
      simp [List.isEmpty_iff, hdiff]
    rw [process_entry, if_neg hn1, hn2] at hl
    simp only [Bool.false_eq_true, if_false, hn3, hn4, Bool.not_false,
      Bool.and_self, if_true, hset] at hl
    refine ⟨_, hset, List.getLast?_concat _, ?_⟩
    apply hsub
    rw [← Except.ok.inj hl]
    simp
  · intro eman hmem hname
    obtain ⟨l, hl, hsub⟩ := create_new_docker_image_mem dumpsManifest
      loadsConfig dumpsConfig manifest oldD newD newBytes entries out hout
      eman hmem
    rw [process_entry, if_pos hname] at hl
    apply hsub
    rw [← Except.ok.inj hl]
    simp

/-- Injected manifest serializer of the C9 witness. -/
def dmEx : Manifest → String := fun _ => "MANIFEST"

/-- Injected config parser of the C9 witness: one diff id. -/
def lcEx : String → ConfigDoc := fun s => ⟨["sha256:oldid"], s⟩

/-- Injected config serializer of the C9 witness: the joined diff ids. -/
def dcEx : ConfigDoc → String :=
  fun c => String.mk (c.diff_ids.map String.data).join

/-- Original archive entries of the C9 witness. -/
def entriesEx : List TarEntryIn :=
  [⟨"manifest.json", "OLD", 3⟩, ⟨"abcd.json", "CFG", 3⟩]

/-- Rewritten manifest of the C9 witness. -/
def manifestEx : Manifest := ⟨["9999/layer.tar"], "abcd.json"⟩

/-- Output entries of the C9 witness. -/
def outEx : List TarEntryOut :=
  [⟨"manifest.json", "MANIFEST", 8⟩, ⟨"abcd.json", "sha256:2222", 11⟩]

/-- Witness for claim C9 at a concrete two entry archive. -/
theorem claim_C9_config_and_manifest_rewrite_witness :
    create_new_docker_image dmEx lcEx dcEx manifestEx "1111" "2222" "NB"
      entriesEx = .ok outEx ∧
    (⟨"abcd.json", "sha256:2222", 11⟩ : TarEntryOut) ∈ outEx ∧
    (⟨"manifest.json", "MANIFEST", 8⟩ : TarEntryOut) ∈ outEx := by
  have hout : create_new_docker_image dmEx lcEx dcEx manifestEx "1111"
      "2222" "NB" entriesEx = .ok outEx := rfl
  have h := claim_C9_config_and_manifest_rewrite dmEx lcEx dcEx manifestEx
    entriesEx "1111" "2222" "NB" outEx hout ⟨"abcd.json", "CFG", 3⟩
    (by simp [entriesEx]) (by decide) (by decide) (by decide) (by decide)
    (by decide)
  obtain ⟨⟨cfg, hset, _, hmem⟩, hman⟩ := h
  have hcfg : cfg = ⟨["sha256:2222"], "CFG"⟩ := by
    have h2 : setLastDiffId (lcEx "CFG") ("sha256:" ++ "2222") =
        .ok ⟨["sha256:2222"], "CFG"⟩ := rfl
    exact (Except.ok.inj (h2.symm.trans hset)).symm
  rw [hcfg] at hmem
  exact ⟨hout, hmem, hman ⟨"manifest.json", "OLD", 3⟩ (by simp [entriesEx])
    rfl⟩

/-- Claim C10: matching of the replaced layer identifier is by substring
containment, not exact equality: build_manifest_with_new_layer replaces
the first Layers entry whose string contains the old identifier and
changes no other entry, and process_entry treats every archive entry
whose name contains the old identifier (other than manifest.json) as
belonging to the replaced layer, emitting it, if at all, only under the
new digest directory. -/
theorem claim_C10_substring_matching (old : Manifest)
    (oldD newD : String) (i : Nat)
    (hfirst : firstMatchIdx (fun l => substrB oldD l) old.Layers = some i) :
    ((build_manifest_with_new_layer old oldD newD).1.Layers =
        old.Layers.set i (newD ++ "/layer.tar") ∧
      ∀ j, j ≠ i →
        (build_manifest_with_new_layer old oldD newD).1.Layers.get? j =
          old.Layers.get? j) ∧
    (∀ (dumpsManifest : Manifest → String)
        (loadsConfig : String → ConfigDoc)
        (dumpsConfig : ConfigDoc → String) (manifest : Manifest)
        (newBytes : String) (f : TarEntryIn),
      substrB oldD f.name = true → f.name ≠ "manifest.json" →
      ∀ l, process_entry dumpsManifest loadsConfig dumpsConfig manifest
          oldD newD newBytes f = .ok l →
        ∀ x ∈ l, x.name = newD ++ "/layer.tar" ∨
          x.name = newD ++ "/" ++ basename f.name) := by
  have hset : (build_manifest_with_new_layer old oldD newD).1.Layers =
      old.Layers.set i (newD ++ "/layer.tar") := by
    unfold build_manifest_with_new_layer
    rw [hfirst]
  constructor
  · refine ⟨hset, ?_⟩
    intro j hj
    rw [hset]
    exact List.get?_set_ne _ _ (Ne.symm hj)
  · intro dumpsManifest loadsConfig dumpsConfig manifest newBytes f
      hsub hne l hl x hx
    rw [process_entry, if_neg hne, hsub] at hl
    by_cases hlay : substrB "layer" f.name = true
    · simp only [hlay, if_true] at hl
      rw [← Except.ok.inj hl] at hx
      simp at hx
    · simp only [hlay] at hl
      by_cases heq : f.name = oldD
      · simp only [if_pos heq] at hl
        rw [← Except.ok.inj hl] at hx
        simp at hx
        rw [hx]
        exact Or.inl rfl
      · simp only [if_neg heq] at hl
        rw [← Except.ok.inj hl] at hx
        simp at hx
        rw [hx]
        exact Or.inr rfl

/-- Witness for claim C10: with identifier 1111 occurring in both
Layers entries, only the first is replaced; and a VERSION entry of the
replaced layer directory is re-emitted under the new digest. -/
theorem claim_C10_substring_matching_witness :
    (build_manifest_with_new_layer
        ⟨["xx1111yy/layer.tar", "1111/json"], "c.json"⟩ "1111" "2222").1.Layers =
      ["2222/layer.tar", "1111/json"] ∧
    ((⟨"2222/VERSION", "1.0", 3⟩ : TarEntryOut).name =
        "2222" ++ "/layer.tar" ∨
      (⟨"2222/VERSION", "1.0", 3⟩ : TarEntryOut).name =
        "2222" ++ "/" ++ basename "1111/VERSION") := by
  have h := claim_C10_substring_matching
    ⟨["xx1111yy/layer.tar", "1111/json"], "c.json"⟩ "1111" "2222" 0
    (by decide)
  constructor
  · exact h.1.1.trans (by decide)
  · exact h.2 dmEx lcEx dcEx manifestEx "NB" ⟨"1111/VERSION", "1.0", 3⟩
      (by decide) (by decide) [⟨"2222/VERSION", "1.0", 3⟩] rfl
      ⟨"2222/VERSION", "1.0", 3⟩ (by simp)

end Dockerscan
